import Mathlib

/-!
Verification of the access-control core of the case-management system
(`softwaresegurosistemadejueces`).

The definitions below are a shallow embedding of:
  * `src/lib/abac/evaluator.ts`   — the ABAC evaluator (`checkPermission` and
    its private helpers `getUserAttributes`, `mapActionToAttribute`,
    `restrictionAppliesToAction`, `checkClearanceLevel`, `logDecision`);
  * `src/lib/vault/middleware.ts` — the fixed-window rate limiter
    (`checkRateLimit`);
  * `src/scripts/migrations/016_admin_audit_complete.sql` — the grant-time
    trigger `check_admin_no_vault_access` and the anonymizing view
    `audit_logs_sanitized`;
  * the ephemeral-credential service (its implementation file is not part of
    the sources here; `validateToken` is modelled from the specification,
    see its doc comment).

Database reads are modelled by passing the store contents (or an
`Except`-wrapped failure) as explicit arguments; timestamps are integers.
-/

namespace Jueces

/-- String test mirroring JavaScript `s.startsWith(pre)` / SQL `LIKE 'pre%'`,
computed on the character list so that proofs can evaluate it. -/
def strStartsWith (s pre : String) : Bool :=
  pre.toList.isPrefixOf s.toList

/-- String test mirroring JavaScript `s.includes(sub)` / SQL `~`-containment,
computed on the character list. -/
def strIncludes (s sub : String) : Bool :=
  (s.toList.tails).any (fun t => sub.toList.isPrefixOf t)

/-! ## ABAC evaluator data model (src/lib/abac/evaluator.ts) -/

/-- `UserAttribute` (evaluator.ts lines 27-33): a catalog attribute joined
into a user grant. `description` is `string | null` in the source. -/
structure UserAttribute where
  id : String
  name : String
  category : String
  level : Int
  description : Option String
  deriving Repr, DecidableEq

/-- One row of the `user_attributes` table as read by the evaluator's
queries: the expiry of the grant and the joined `abac_attributes` entry
(`null` when the join finds nothing; such rows are dropped by
`.filter(Boolean)` in `getUserAttributes`). -/
structure GrantRow where
  expiresAt : Option Int
  attr : Option UserAttribute
  deriving Repr, DecidableEq

/-- The active-grant filter `.or('expires_at.is.null,expires_at.gt.now()')`
used by every evaluator query: a row is kept iff `expires_at` is null or
strictly after `now`. -/
def rowActive (now : Int) (r : GrantRow) : Bool :=
  match r.expiresAt with
  | none => true
  | some e => decide (now < e)

/-- The result rows of `getUserAttributes` (evaluator.ts lines 151-177) when
the query succeeds: active rows, flattened to their joined attribute,
null joins dropped (`.filter(Boolean)`). -/
def queryUserAttributes (db : List GrantRow) (now : Int) : List UserAttribute :=
  (db.filter (rowActive now)).filterMap (fun r => r.attr)

/-- The result rows of the separate query inside `checkClearanceLevel`
(evaluator.ts lines 249-256): active rows whose joined attribute name is
`LIKE 'clearance.%'` (inner join, so null joins are excluded); only the
name is used downstream. -/
def clearanceQuery (db : List GrantRow) (now : Int) : List String :=
  (db.filter (fun r =>
      rowActive now r &&
      (match r.attr with
       | some a => strStartsWith a.name "clearance."
       | none => false))).filterMap (fun r => (r.attr).map (fun a => a.name))

/-- The property names a bracket lookup on a plain JavaScript object
literal resolves through the prototype chain: the members of
`Object.prototype`. Every one of them is a function (truthy) except
`__proto__`, whose accessor yields `Object.prototype` itself (also
truthy). -/
def objectPrototypeMember (key : String) : Bool :=
  key == "constructor" || key == "hasOwnProperty" || key == "isPrototypeOf" ||
  key == "propertyIsEnumerable" || key == "toLocaleString" ||
  key == "toString" || key == "valueOf" || key == "__proto__" ||
  key == "__defineGetter__" || key == "__defineSetter__" ||
  key == "__lookupGetter__" || key == "__lookupSetter__"

/-- The value of `mapping[action] || null` in `mapActionToAttribute`: an
own entry of the table (a string), a truthy non-string member inherited
from `Object.prototype` (for action names such as `toString`), or null. -/
inductive MappedAttribute where
  | attrName (s : String)
  | protoMember (key : String)
  | nullish
  deriving Repr, DecidableEq

/-- `mapActionToAttribute` (evaluator.ts lines 182-215): the fixed
action-to-required-attribute table; `mapping[action] || null`. A bracket
lookup on the object literal also reaches members inherited from
`Object.prototype`, which are truthy and survive the `|| null`. -/
def mapActionToAttribute (action : String) : MappedAttribute :=
  match action with
  | "case.create" => MappedAttribute.attrName "case.create"
  | "case.view" => MappedAttribute.attrName "case.list.view"
  | "case.view_details" => MappedAttribute.attrName "case.details.view"
  | "case.edit" => MappedAttribute.attrName "case.edit.metadata"
  | "case.update_status" => MappedAttribute.attrName "case.edit.status"
  | "case.assign" => MappedAttribute.attrName "case.assign.judge"
  | "case.close" => MappedAttribute.attrName "case.close"
  | "case.delete" => MappedAttribute.attrName "case.delete"
  | "doc.view" => MappedAttribute.attrName "doc.view"
  | "doc.upload" => MappedAttribute.attrName "doc.upload"
  | "doc.download" => MappedAttribute.attrName "doc.download"
  | "doc.sign" => MappedAttribute.attrName "doc.sign.digital"
  | "doc.delete" => MappedAttribute.attrName "doc.delete"
  | "user.list" => MappedAttribute.attrName "user.list.view"
  | "user.view" => MappedAttribute.attrName "user.profile.view"
  | "user.create" => MappedAttribute.attrName "user.create"
  | "user.edit" => MappedAttribute.attrName "user.edit"
  | "user.deactivate" => MappedAttribute.attrName "user.deactivate"
  | "admin.reveal_identity" => MappedAttribute.attrName "admin.vault.reveal_identity"
  | "admin.abac" => MappedAttribute.attrName "admin.abac.manage"
  | "admin.audit" => MappedAttribute.attrName "admin.audit.view"
  | _ =>
    if objectPrototypeMember action then MappedAttribute.protoMember action
    else MappedAttribute.nullish

/-- The template-literal rendering of a member inherited from
`Object.prototype` (the text `${requiredAttribute}` produces for a
function, e.g. `function toString() ...`) is host-defined; no theorem
depends on this text, and the embedding renders the member by its key. -/
def protoMemberDisplay (key : String) : String :=
  key

/-- The value of `rules[restriction] || []` in `restrictionAppliesToAction`:
an own entry (or the `|| []` default) is an array; for a restriction named
like an `Object.prototype` member the lookup yields that inherited truthy
member instead, on which the subsequent `.some(...)` call throws. -/
inductive BlockedActions where
  | list (l : List String)
  | protoMember (key : String)
  deriving Repr, DecidableEq

/-- The restriction-to-blocked-action-prefix table of
`restrictionAppliesToAction` (evaluator.ts lines 221-225); `rules[r] || []`,
with the prototype-chain leak of the bracket lookup made explicit. -/
def restrictionRules (restriction : String) : BlockedActions :=
  match restriction with
  | "restrict.no_export" => BlockedActions.list ["doc.download", "doc.export"]
  | "restrict.no_delete" =>
    BlockedActions.list ["case.delete", "doc.delete", "user.deactivate"]
  | "restrict.read_only" =>
    BlockedActions.list ["case.edit", "case.create", "doc.upload", "doc.delete"]
  | _ =>
    if objectPrototypeMember restriction then BlockedActions.protoMember restriction
    else BlockedActions.list []

/-- `restrictionAppliesToAction` (evaluator.ts lines 220-229):
`blockedActions.some(blocked => action.startsWith(blocked))`. When the
lookup produced an inherited `Object.prototype` member, `.some` is not a
function and the call throws a TypeError, modelled as `error`. -/
def restrictionAppliesToAction (restriction action : String) : Except Unit Bool :=
  match restrictionRules restriction with
  | BlockedActions.protoMember _ => Except.error ()
  | BlockedActions.list blocked =>
    Except.ok (blocked.any (fun b => strStartsWith action b))

/-- The `for (const restriction of restrictions)` loop of `checkPermission`
(evaluator.ts lines 90-104): restrictions are tested in list order; a
thrown TypeError aborts the loop (and propagates to the catch), otherwise
the first matching restriction is returned. -/
def scanRestrictions (restrictions : List UserAttribute) (action : String) :
    Except Unit (Option UserAttribute) :=
  match restrictions with
  | [] => Except.ok none
  | r :: rest =>
    match restrictionAppliesToAction r.name action with
    | Except.error e => Except.error e
    | Except.ok true => Except.ok (some r)
    | Except.ok false => scanRestrictions rest action

/-- The `requiredLevels` record of `checkClearanceLevel`
(evaluator.ts lines 239-244). -/
def requiredLevels (classification : String) : Option Nat :=
  match classification with
  | "public" => some 1
  | "confidential" => some 2
  | "secret" => some 3
  | "top_secret" => some 4
  | _ => none

/-- The level derived from a clearance attribute name inside
`checkClearanceLevel` (evaluator.ts lines 264-271): the source tests the
substrings `L1`, `L2`, `L3`, `L4` in that order and yields 0 otherwise. -/
def levelFromName (name : String) : Nat :=
  if strIncludes name "L1" then 1
  else if strIncludes name "L2" then 2
  else if strIncludes name "L3" then 3
  else if strIncludes name "L4" then 4
  else 0

/-- `checkClearanceLevel` (evaluator.ts lines 234-275). The source
destructures only `data` from the query response and never inspects the
error field, so a failed query behaves exactly like `data = null`, which
falls into the `!data || data.length === 0` branch. `clrRes` is the raw
outcome of the clearance query. -/
def checkClearanceLevel (clrRes : Except Unit (List GrantRow)) (now : Int)
    (classification : String) : Bool :=
  let requiredLevel := (requiredLevels classification).getD 1
  let data : List String :=
    match clrRes with
    | Except.error _ => []
    | Except.ok db => clearanceQuery db now
  if data.isEmpty then classification == "public"
  else decide ((data.map levelFromName).foldl max 0 ≥ requiredLevel)

/-- `EvaluationContext` (evaluator.ts lines 6-12). The evaluator reads only
`metadata?.classification` from the metadata record, so the embedding keeps
just that field. -/
structure EvaluationContext where
  userId : String
  action : String
  resourceType : String
  resourceId : Option String
  classification : Option String
  deriving Repr, DecidableEq

/-- `EvaluationResult` (evaluator.ts lines 17-22). -/
structure EvaluationResult where
  allowed : Bool
  reason : String
  policy : Option String
  attributesChecked : Option (List String)
  deriving Repr, DecidableEq

/-- The row inserted into `policy_enforcement_log` by `logDecision`
(evaluator.ts lines 280-305). -/
structure Decision where
  userId : String
  action : String
  resourceType : String
  resourceId : Option String
  result : String
  reason : String
  deriving Repr, DecidableEq

/-- Builds the `policy_enforcement_log` row exactly as `logDecision` does:
`result` is `'allow'` or `'deny'`. -/
def mkDecision (ctx : EvaluationContext) (allowed : Bool) (reason : String) :
    Decision :=
  { userId := ctx.userId
    action := ctx.action
    resourceType := ctx.resourceType
    resourceId := ctx.resourceId
    result := if allowed then "allow" else "deny"
    reason := reason }

/-- The inputs of one `checkPermission` call: the context, the current time,
and the raw outcomes of the two store reads it performs (`getUserAttributes`
and the clearance query; they are separate round trips and may fail
independently). An `error` in `attrsRes` is the thrown error of
`getUserAttributes` (evaluator.ts lines 168-171). -/
structure EvalInput where
  ctx : EvaluationContext
  now : Int
  attrsRes : Except Unit (List GrantRow)
  clrRes : Except Unit (List GrantRow)

/-- The truthiness test `resourceType === 'case' && context.metadata?.classification`
(evaluator.ts line 107); an empty classification string is falsy. -/
def classificationGuard (ctx : EvaluationContext) : Bool :=
  ctx.resourceType == "case" &&
    (match ctx.classification with
     | some c => c != ""
     | none => false)

/-- The result `checkPermission` builds in its catch block
(evaluator.ts lines 138-145); the catch performs no `logDecision` call. -/
def systemErrorResult : EvaluationResult :=
  { allowed := false
    reason := "Error del sistema - acceso denegado por seguridad"
    policy := none
    attributesChecked := none }

/-- Steps 3-5 of `checkPermission` (evaluator.ts lines 85-136), reached
once the required-attribute step did not deny: the restriction loop (whose
TypeError on a prototype-named restriction lands in the catch — generic
deny, no `Decision` row), then the clearance check, then allow. Returns
the evaluation result together with the single `Decision` row handed to
`logDecision` on that branch (`none` when the loop threw). -/
def evaluateFromRestrictions (ctx : EvaluationContext)
    (clrRes : Except Unit (List GrantRow)) (now : Int)
    (userAttributes : List UserAttribute) : EvaluationResult × Option Decision :=
  let restrictions := userAttributes.filter (fun a => a.category == "restriction")
  match scanRestrictions restrictions ctx.action with
  | Except.error _ => (systemErrorResult, none)
  | Except.ok (some r) =>
    ({ allowed := false
       reason := "Acción bloqueada por restricción: " ++ r.description.getD "null"
       policy := some "Restriction Policy"
       attributesChecked := none },
     some (mkDecision ctx false ("Blocked by restriction: " ++ r.name)))
  | Except.ok none =>
    if classificationGuard ctx &&
        !(checkClearanceLevel clrRes now (ctx.classification.getD "")) then
      ({ allowed := false
         reason := "Nivel de seguridad insuficiente para este caso"
         policy := some "Classification Control"
         attributesChecked := none },
       some (mkDecision ctx false
         ("Insufficient clearance for classification: " ++ ctx.classification.getD "")))
    else
      ({ allowed := true
         reason := "Acceso permitido"
         policy := none
         attributesChecked := some (userAttributes.map (fun a => a.name)) },
       some (mkDecision ctx true "All checks passed"))

/-- The body of `checkPermission` (evaluator.ts lines 58-146), returning the
evaluation result together with the single `Decision` row handed to
`logDecision` on that branch (`none` on the catch branch, which performs no
`logDecision` call). Branches in source order: thrown attribute load
(catch), missing required attribute — where a truthy inherited prototype
member passes `if (requiredAttribute)` and then fails
`attr.name === requiredAttribute` against every string, so it always
denies —, then the restriction loop, clearance, allow (see
`evaluateFromRestrictions`). -/
def evaluate (inp : EvalInput) : EvaluationResult × Option Decision :=
  let ctx := inp.ctx
  match inp.attrsRes with
  | Except.error _ => (systemErrorResult, none)
  | Except.ok db =>
    let userAttributes := queryUserAttributes db inp.now
    match mapActionToAttribute ctx.action with
    | MappedAttribute.attrName req =>
      if userAttributes.any (fun a => a.name == req) then
        evaluateFromRestrictions ctx inp.clrRes inp.now userAttributes
      else
        ({ allowed := false
           reason := "Permiso denegado: requiere atributo \"" ++ req ++ "\""
           policy := none
           attributesChecked := some [req] },
         some (mkDecision ctx false ("Missing required attribute: " ++ req)))
    | MappedAttribute.protoMember key =>
      ({ allowed := false
         reason := "Permiso denegado: requiere atributo \""
           ++ protoMemberDisplay key ++ "\""
         policy := none
         attributesChecked := some [protoMemberDisplay key] },
       some (mkDecision ctx false
         ("Missing required attribute: " ++ protoMemberDisplay key)))
    | MappedAttribute.nullish =>
      evaluateFromRestrictions ctx inp.clrRes inp.now userAttributes

/-- Does the required-attribute step (step 2) of `checkPermission` pass?
It passes when the action is unmapped (`null` imposes nothing) or the
subject holds the mapped attribute; an inherited prototype member is
truthy but equals no attribute name, so it never passes. -/
def requiredCheckPasses (action : String)
    (userAttributes : List UserAttribute) : Bool :=
  match mapActionToAttribute action with
  | MappedAttribute.attrName req => userAttributes.any (fun a => a.name == req)
  | MappedAttribute.protoMember _ => false
  | MappedAttribute.nullish => true

/-- `checkPermission` together with its audit effect: `auditOk` is the
outcome of the (at most one) `logDecision` insert of the call; `logDecision`
swallows its own failure (evaluator.ts lines 301-304), so the outcome never
reaches the evaluation result. The second component is the list of
`Decision` rows actually persisted to the audit sink by this call. -/
def checkPermission (inp : EvalInput) (auditOk : Bool) :
    EvaluationResult × List Decision :=
  let r := evaluate inp
  (r.1,
   match r.2, auditOk with
   | some d, true => [d]
   | _, _ => [])

/-! ## Rate limiter (src/lib/vault/middleware.ts lines 8-16 and 141-171) -/

/-- One value of the in-memory `rateLimitStore` map:
`{ count: number; resetAt: number }`. -/
structure RateLimitEntry where
  count : Nat
  resetAt : Int
  deriving Repr, DecidableEq

/-- The result of `checkRateLimit`. `remaining` is an integer because the
fresh-window branch returns `maxRequests - 1` without clamping. -/
structure RateLimitResult where
  allowed : Bool
  remaining : Int
  resetIn : Int
  deriving Repr, DecidableEq

/-- `RATE_LIMIT_WINDOW_MS = 60 * 1000` (middleware.ts line 11). -/
def RATE_LIMIT_WINDOW_MS : Int := 60 * 1000

/-- `rateLimitStore.get(key)` on the association-list model of the map. -/
def storeGet (s : List (String × RateLimitEntry)) (k : String) :
    Option RateLimitEntry :=
  match s.find? (fun p => p.1 == k) with
  | some p => some p.2
  | none => none

/-- `rateLimitStore.set(key, v)`: replace the existing binding or append. -/
def storeSet : List (String × RateLimitEntry) → String → RateLimitEntry →
    List (String × RateLimitEntry)
  | [], k, v => [(k, v)]
  | p :: rest, k, v => if p.1 == k then (k, v) :: rest else p :: storeSet rest k v

/-- `checkRateLimit` (middleware.ts lines 141-171), with the mutable map and
`Date.now()` passed explicitly. Returns the result and the updated store.
A missing or expired entry (`current.resetAt < now`) re-initializes the
counter to 1 and allows unconditionally; otherwise the counter is
incremented and the request is allowed iff `count <= maxRequests`. -/
def checkRateLimit (store : List (String × RateLimitEntry)) (now : Int)
    (identifier : String) (maxRequests : Nat) :
    RateLimitResult × List (String × RateLimitEntry) :=
  let key := "rate:" ++ identifier
  match storeGet store key with
  | none =>
    ({ allowed := true, remaining := (maxRequests : Int) - 1,
       resetIn := RATE_LIMIT_WINDOW_MS },
     storeSet store key { count := 1, resetAt := now + RATE_LIMIT_WINDOW_MS })
  | some current =>
    if current.resetAt < now then
      ({ allowed := true, remaining := (maxRequests : Int) - 1,
         resetIn := RATE_LIMIT_WINDOW_MS },
       storeSet store key { count := 1, resetAt := now + RATE_LIMIT_WINDOW_MS })
    else
      let newCount := current.count + 1
      ({ allowed := decide (newCount ≤ maxRequests),
         remaining := max 0 ((maxRequests : Int) - (newCount : Int)),
         resetIn := current.resetAt - now },
       storeSet store key { count := newCount, resetAt := current.resetAt })

/-- Driver folding `checkRateLimit` over a list of request times for one
principal and one limit, collecting the `allowed` verdicts and the final
store; used to state the per-window behaviour. -/
def runRateLimit (identifier : String) (maxRequests : Nat) :
    List (String × RateLimitEntry) → List Int →
    List Bool × List (String × RateLimitEntry)
  | store, [] => ([], store)
  | store, t :: ts =>
    let r := checkRateLimit store t identifier maxRequests
    let rest := runRateLimit identifier maxRequests r.2 ts
    (r.1.allowed :: rest.1, rest.2)

/-! ## Grant-time trigger (016_admin_audit_complete.sql lines 159-199) -/

/-- A row of `users_profile` as consulted by the trigger. -/
structure UserProfileRow where
  id : String
  role : String
  deriving Repr, DecidableEq

/-- A row of the `abac_attributes` catalog as consulted by the trigger. -/
structure AbacAttributeRow where
  id : String
  name : String
  deriving Repr, DecidableEq

/-- A row being inserted into `user_attributes` (the trigger's `NEW`). -/
structure UserAttributeRow where
  userId : String
  attributeId : String
  deriving Repr, DecidableEq

/-- `SELECT role INTO user_role FROM users_profile WHERE id = NEW.user_id`;
`none` models SQL NULL when no profile exists. -/
def lookupRole (profiles : List UserProfileRow) (uid : String) : Option String :=
  (profiles.find? (fun p => p.id == uid)).map (fun p => p.role)

/-- `SELECT name INTO attr_name FROM abac_attributes WHERE id = NEW.attribute_id`. -/
def lookupAttrName (attrs : List AbacAttributeRow) (aid : String) : Option String :=
  (attrs.find? (fun a => a.id == aid)).map (fun a => a.name)

/-- The trigger function `check_admin_no_vault_access` (migration 016 lines
159-192): `true` means the trigger raises and the insert is blocked. The
three `IF` conditions use SQL three-valued logic, so a NULL role or NULL
attribute name never raises. -/
def check_admin_no_vault_access (userRole attrName : Option String) : Bool :=
  match userRole, attrName with
  | some r, some n =>
    (r == "admin" && strStartsWith n "admin.vault.") ||
    (r == "admin" &&
      (n == "user.profile.view" || n == "user.create" ||
       n == "user.edit" || n == "user.deactivate")) ||
    (r == "admin" && strStartsWith n "case." && n != "audit.cases.stats")
  | _, _ => false

/-- An `INSERT INTO user_attributes` guarded by the
`prevent_admin_vault_access` trigger: the row is appended iff the trigger
does not raise. -/
def insertUserAttribute (profiles : List UserProfileRow)
    (attrs : List AbacAttributeRow) (state : List UserAttributeRow)
    (row : UserAttributeRow) : Except String (List UserAttributeRow) :=
  if check_admin_no_vault_access (lookupRole profiles row.userId)
      (lookupAttrName attrs row.attributeId) then
    Except.error "SECURITY VIOLATION"
  else
    Except.ok (state ++ [row])

/-- A sequence of guarded inserts; a rejected insert (raised trigger) leaves
the table unchanged and the remaining inserts proceed. States reachable
through the grant-issuing operation are exactly the results of this fold. -/
def insertAll (profiles : List UserProfileRow) (attrs : List AbacAttributeRow) :
    List UserAttributeRow → List UserAttributeRow → List UserAttributeRow
  | state, [] => state
  | state, r :: rs =>
    match insertUserAttribute profiles attrs state r with
    | Except.ok s' => insertAll profiles attrs s' rs
    | Except.error _ => insertAll profiles attrs state rs

/-- The attribute names the specification forbids for the auditor role:
vault-reveal (`admin.vault.*`), user-management, and case-content
(`case.*`) capabilities. -/
def forbiddenForAuditor (n : String) : Bool :=
  strStartsWith n "admin.vault." ||
  n == "user.profile.view" || n == "user.create" ||
  n == "user.edit" || n == "user.deactivate" ||
  strStartsWith n "case."

/-! ## Anonymized audit view (016_admin_audit_complete.sql lines 63-89) -/

/-- A row of `policy_enforcement_log` as read by the view
`audit_logs_sanitized`. -/
structure LogRow where
  id : String
  userId : String
  action : String
  resourceType : String
  resourceId : Option String
  result : String
  reason : Option String
  timestamp : Int
  deriving Repr, DecidableEq

/-- A row of the view `audit_logs_sanitized`: note that there is no
`userId` and no `resourceId` column. -/
structure SanitizedRow where
  id : String
  userHash : String
  action : String
  resourceType : String
  result : String
  reasonSanitized : Option String
  timestamp : Int
  deriving Repr, DecidableEq

/-- A lowercase-hex digit, the character class `[0-9a-f]` of the view's
UUID regex. -/
def isLowerHex (c : Char) : Bool :=
  c.isDigit || ('a' ≤ c && c ≤ 'f')

/-- Does the character list start with `n` lowercase-hex digits followed by
the given tail check? Helper for the UUID-shape regex. -/
def hexRun : Nat → List Char → Option (List Char)
  | 0, cs => some cs
  | _ + 1, [] => none
  | n + 1, c :: cs => if isLowerHex c then hexRun n cs else none

/-- Does the character list start with a UUID-shaped substring
(`8-4-4-4-12` lowercase-hex groups separated by dashes)? -/
def uuidShapedAt (cs : List Char) : Bool :=
  match hexRun 8 cs with
  | none => false
  | some cs1 =>
    match cs1 with
    | '-' :: cs2 =>
      match hexRun 4 cs2 with
      | none => false
      | some cs3 =>
        match cs3 with
        | '-' :: cs4 =>
          match hexRun 4 cs4 with
          | none => false
          | some cs5 =>
            match cs5 with
            | '-' :: cs6 =>
              match hexRun 4 cs6 with
              | none => false
              | some cs7 =>
                match cs7 with
                | '-' :: cs8 => (hexRun 12 cs8).isSome
                | _ => false
            | _ => false
        | _ => false
    | _ => false

/-- The view's unanchored regex match
`reason ~ '[0-9a-f]{8}-[0-9a-f]{4}-[0-9a-f]{4}-[0-9a-f]{4}-[0-9a-f]{12}'`:
some position of the string starts a UUID-shaped substring. -/
def containsUuidShaped (s : String) : Bool :=
  (s.toList.tails).any uuidShapedAt

/-- The `CASE` expression computing `reason_sanitized` in the view
(migration 016 lines 76-83): NULL stays NULL, a reason containing a
UUID-shaped substring becomes the fixed placeholder, a reason longer than
100 characters is truncated with `'...'`, anything else passes through. -/
def sanitizeReason (reason : Option String) : Option String :=
  match reason with
  | none => none
  | some r =>
    if containsUuidShaped r then some "Access decision logged"
    else if decide (r.toList.length > 100) then
      some (String.mk (r.toList.take 100) ++ "...")
    else some r

/-- One row of `audit_logs_sanitized` (migration 016 lines 65-89) as a
function of the underlying log row. The one-way hash is the parameter
`md5hex` (`MD5(user_id::text)`); `user_hash` keeps its first 8 characters;
`resource_id`, `metadata`, `ip_address` and `user_agent` are not selected.
The derived `hour_of_day` / `day_of_week` columns are functions of the
retained `timestamp` column and are omitted. -/
def toSanitized (md5hex : String → String) (row : LogRow) : SanitizedRow :=
  { id := row.id
    userHash := String.mk ((md5hex row.userId).toList.take 8)
    action := row.action
    resourceType := row.resourceType
    result := row.result
    reasonSanitized := sanitizeReason row.reason
    timestamp := row.timestamp }

/-! ## Ephemeral credential service (modelled from the spec) -/

/-- `EphemeralCredential` as described in spec section 3:
`{token, caseId, issuedTo, issuedAt, expiresAt, usedAt?}`. -/
structure EphemeralCredential where
  token : String
  caseId : String
  issuedTo : String
  issuedAt : Int
  expiresAt : Int
  usedAt : Option Int
  deriving Repr, DecidableEq

/-- Modelled from the spec: the implementation file
`src/lib/services/ephemeral-credentials.ts` of `EphemeralCredentialsService`
is not among the sources (only its call site in
`src/app/judge/cases/[id]/page.tsx` is). Spec section 4.3:
`validate(token)` atomically checks `usedAt is null and expiresAt > now`
and, if valid, sets `usedAt = now` in the same atomic step and returns the
bound `caseId`; it returns null for unknown, expired, or already-used
tokens. The store is the list of issued credentials; the function returns
the response and the updated store. -/
def validateToken (store : List EphemeralCredential) (token : String)
    (now : Int) : Option String × List EphemeralCredential :=
  match store.find? (fun c => c.token == token) with
  | none => (none, store)
  | some c =>
    if c.usedAt.isNone && decide (now < c.expiresAt) then
      (some c.caseId,
       store.map (fun d =>
         if d.token == token then
           { d with usedAt := some now }
         else d))
    else (none, store)

/-! ## Spec-side comparison definitions -/

/-- The required clearance level per classification as the specification
states it: public 1, confidential 2, secret 3, top secret 4 (matches
`CLASSIFICATION_LEVELS` in src/lib/abac/types.ts lines 30-35). -/
def requiredLevelSpec (classification : String) : Nat :=
  match classification with
  | "public" => 1
  | "confidential" => 2
  | "secret" => 3
  | "top_secret" => 4
  | _ => 0

/-- The subject's clearance level: the maximum level derived from the
active clearance-tier attribute names, 0 when there are none (the code's
`Math.max(...data.map(...))` computation). -/
def subjectClearanceLevel (db : List GrantRow) (now : Int) : Nat :=
  ((clearanceQuery db now).map levelFromName).foldl max 0

/-- The auditor-capability invariant over a `user_attributes` table state:
no grant row whose subject has role `admin` names a vault-reveal,
user-management, or case-content attribute. -/
def auditorInvariant (profiles : List UserProfileRow)
    (attrs : List AbacAttributeRow) (state : List UserAttributeRow) : Prop :=
  ∀ row ∈ state, ∀ n, lookupRole profiles row.userId = some "admin" →
    lookupAttrName attrs row.attributeId = some n →
    forbiddenForAuditor n = false

/-! ## Theorems -/

/-- Helper: a blocked name test used when discharging the trigger guard. -/
theorem forbidden_of_not_blocked (n : String)
    (h : check_admin_no_vault_access (some "admin") (some n) = false) :
    forbiddenForAuditor n = false := by
  by_cases hn : n = "audit.cases.stats"
  · subst hn
    decide
  · simp [check_admin_no_vault_access, hn] at h
    simp [forbiddenForAuditor]
    tauto

/-- C1 (counterexample): the claim that every call in which the attribute
store returns an error yields `allowed = false` fails: here the clearance
query of `checkPermission` returns a store error, the classification is
`public`, and the call still returns `allowed = true`, because
`checkClearanceLevel` never inspects the error field of its query
response. -/
theorem C1_counterexample :
    (checkPermission
      ⟨⟨"u1", "case.create", "case", none, some "public"⟩, 0,
        Except.ok [⟨none, some ⟨"a1", "case.create", "permission", 1, none⟩⟩],
        Except.error ()⟩ true).1.allowed = true := by
  decide

/-- C1 (amended): an error raised while loading the subject's attributes
(the `getUserAttributes` query) fails closed — `checkPermission` returns
`allowed = false` through its catch path — while an error of the separate
clearance query is discarded and behaves exactly like a subject with zero
clearance attributes, which still passes for classification `public`. -/
theorem C1_amended (ctx : EvaluationContext) (now now2 : Int)
    (clrRes : Except Unit (List GrantRow)) (auditOk : Bool) (e e2 : Unit)
    (cls : String) :
    (checkPermission ⟨ctx, now, Except.error e, clrRes⟩ auditOk).1.allowed = false ∧
    checkClearanceLevel (Except.error e2) now2 cls = (cls == "public") := by
  refine ⟨rfl, ?_⟩
  simp [checkClearanceLevel]

/-- C2 (counterexample): the claimed second, evaluation-time defensive
check does not exist: in a state where a subject whose role is the auditor
role somehow holds the vault-reveal attribute `admin.vault.reveal_identity`,
`checkPermission` allows the `admin.reveal_identity` action instead of
rejecting the decision — the evaluator never consults the subject's role. -/
theorem C2_counterexample :
    (checkPermission
      ⟨⟨"auditorUser", "admin.reveal_identity", "vault", none, none⟩, 0,
        Except.ok [⟨none,
          some ⟨"a2", "admin.vault.reveal_identity", "permission", 4, none⟩⟩],
        Except.ok []⟩ true).1.allowed = true := by
  decide

/-- C2 (amended): the auditor-capability invariant is enforced at grant
time only: every `user_attributes` state reachable from an invariant state
through inserts guarded by the `prevent_admin_vault_access` trigger still
satisfies the invariant — no subject with role `admin` holds a grant whose
attribute name denotes vault-reveal, user-management, or case-content
capabilities. (No evaluation-time check exists; see the counterexample.) -/
theorem C2_amended (profiles : List UserProfileRow)
    (attrs : List AbacAttributeRow) (state rows : List UserAttributeRow)
    (h : auditorInvariant profiles attrs state) :
    auditorInvariant profiles attrs (insertAll profiles attrs state rows) := by
  induction rows generalizing state with
  | nil => exact h
  | cons r rs ih =>
    simp only [insertAll, insertUserAttribute]
    by_cases hg : check_admin_no_vault_access (lookupRole profiles r.userId)
        (lookupAttrName attrs r.attributeId) = true
    · simp only [hg, if_true]
      exact ih state h
    · rw [Bool.not_eq_true] at hg
      simp only [hg, Bool.false_eq_true, if_false]
      apply ih
      intro row hrow n hrole hname
      rcases List.mem_append.mp hrow with hmem | hmem
      · exact h row hmem n hrole hname
      · have hr : row = r := by simpa using hmem
        subst hr
        rw [hrole, hname] at hg
        exact forbidden_of_not_blocked n hg

/-- C2 (witness): a concrete run of the guarded insert — an auditor-role
subject is granted `audit.logs.view` (accepted) and then
`admin.vault.reveal_identity` (rejected by the trigger) — and the resulting
table still satisfies the invariant. -/
theorem C2_amended_witness :
    auditorInvariant [⟨"u1", "admin"⟩]
      [⟨"a1", "audit.logs.view"⟩, ⟨"a2", "admin.vault.reveal_identity"⟩]
      ([] : List UserAttributeRow) ∧
    auditorInvariant [⟨"u1", "admin"⟩]
      [⟨"a1", "audit.logs.view"⟩, ⟨"a2", "admin.vault.reveal_identity"⟩]
      (insertAll [⟨"u1", "admin"⟩]
        [⟨"a1", "audit.logs.view"⟩, ⟨"a2", "admin.vault.reveal_identity"⟩]
        [] [⟨"u1", "a1"⟩, ⟨"u1", "a2"⟩]) := by
  have hempty : auditorInvariant [⟨"u1", "admin"⟩]
      [⟨"a1", "audit.logs.view"⟩, ⟨"a2", "admin.vault.reveal_identity"⟩]
      ([] : List UserAttributeRow) := by
    intro row hrow
    simp at hrow
  exact ⟨hempty, C2_amended _ _ _ _ hempty⟩

/-- Helper: marking the credential bound to `tok` as used commutes with
looking the token up, because the marking rewrites only `usedAt` and
leaves every token unchanged. -/
theorem find?_token_map (l : List EphemeralCredential) (tok : String) (t : Int) :
    (l.map (fun d => if d.token == tok then { d with usedAt := some t } else d)).find?
        (fun d => d.token == tok)
      = (l.find? (fun d => d.token == tok)).map
          (fun d => if d.token == tok then { d with usedAt := some t } else d) := by
  induction l with
  | nil => rfl
  | cons x xs ih =>
    rw [List.map_cons]
    by_cases hx : (x.token == tok) = true
    · have hfx : (((if x.token == tok then { x with usedAt := some t } else x) :
          EphemeralCredential).token == tok) = true := by
        rw [if_pos hx]
        exact hx
      have hxeq : x.token = tok := by simpa using hx
      rw [List.find?_cons, List.find?_cons]
      simp [hfx, hx, hxeq]
    · have hfx : (((if x.token == tok then { x with usedAt := some t } else x) :
          EphemeralCredential).token == tok) = false := by
        rw [if_neg hx]
        rw [Bool.not_eq_true] at hx
        exact hx
      rw [Bool.not_eq_true] at hx
      rw [List.find?_cons, List.find?_cons, hfx, hx]
      exact ih

/-- C3: single use of ephemeral credentials. For a stored credential bound
to `tok` that is unused and unexpired at time `t1`: the first `validateToken`
succeeds and returns the bound `caseId` while setting `usedAt := some t1`
(the null → non-null transition); a second `validateToken` on the resulting
store returns `none` at any time; and validating the original unused
credential at any time `t3` past `expiresAt` returns `none`. -/
theorem C3_single_use (store : List EphemeralCredential)
    (c : EphemeralCredential) (tok : String) (t1 t2 t3 : Int)
    (hfind : store.find? (fun d => d.token == tok) = some c)
    (hunused : c.usedAt = none) (hfresh : t1 < c.expiresAt) :
    (validateToken store tok t1).1 = some c.caseId ∧
    ((validateToken store tok t1).2.find? (fun d => d.token == tok)
        = some { c with usedAt := some t1 }) ∧
    (validateToken (validateToken store tok t1).2 tok t2).1 = none ∧
    (c.expiresAt ≤ t3 → (validateToken store tok t3).1 = none) := by
  have hctok := List.find?_some hfind
  have hcond : (c.usedAt.isNone && decide (t1 < c.expiresAt)) = true := by
    simp [hunused, hfresh]
  have hval1 : validateToken store tok t1
      = (some c.caseId,
         store.map (fun d =>
           if d.token == tok then { d with usedAt := some t1 } else d)) := by
    simp [validateToken, hfind, hcond]
  have hfind2 : (validateToken store tok t1).2.find? (fun d => d.token == tok)
      = some { c with usedAt := some t1 } := by
    rw [hval1]
    rw [find?_token_map, hfind]
    show some (if c.token == tok then { c with usedAt := some t1 } else c) = _
    rw [if_pos hctok]
  have hsecond : ∀ s' : List EphemeralCredential,
      s'.find? (fun d => d.token == tok) = some { c with usedAt := some t1 } →
      (validateToken s' tok t2).1 = none := by
    intro s' hs'
    simp [validateToken, hs']
  refine ⟨by rw [hval1], hfind2, hsecond _ hfind2, ?_⟩
  intro hexp
  have hcond3 : (c.usedAt.isNone && decide (t3 < c.expiresAt)) = false := by
    simp [hunused]
    omega
  simp [validateToken, hfind, hcond3]

/-- C3 (witness): a concrete credential store exercising the theorem. -/
theorem C3_single_use_witness :
    ([⟨"tok1", "case1", "judge1", 0, 100, none⟩]
        : List EphemeralCredential).find? (fun d => d.token == "tok1")
      = some ⟨"tok1", "case1", "judge1", 0, 100, none⟩ ∧
    (validateToken [⟨"tok1", "case1", "judge1", 0, 100, none⟩] "tok1" 5).1
      = some "case1" ∧
    (validateToken
        (validateToken [⟨"tok1", "case1", "judge1", 0, 100, none⟩] "tok1" 5).2
        "tok1" 6).1 = none ∧
    (validateToken [⟨"tok1", "case1", "judge1", 0, 100, none⟩] "tok1" 150).1
      = none := by
  have h := C3_single_use [⟨"tok1", "case1", "judge1", 0, 100, none⟩]
    ⟨"tok1", "case1", "judge1", 0, 100, none⟩ "tok1" 5 6 150
    (by decide) (by decide) (by decide)
  exact ⟨by decide, h.1, h.2.2.1, h.2.2.2 (by decide)⟩

/-- Helper: a restriction list containing a member whose table entry
matches the action never lets the loop finish without effect: the scan
either reports a match or aborts on an earlier thrown lookup. -/
theorem scanRestrictions_ne_none (l : List UserAttribute) (action : String)
    (h : ∃ a ∈ l, restrictionAppliesToAction a.name action = Except.ok true) :
    scanRestrictions l action ≠ Except.ok none := by
  induction l with
  | nil =>
    obtain ⟨a, ha, _⟩ := h
    exact absurd ha (List.not_mem_nil a)
  | cons r rest ih =>
    obtain ⟨a, ha, happ⟩ := h
    simp only [scanRestrictions]
    rcases List.mem_cons.mp ha with heq | hmem
    · subst heq
      rw [happ]
      simp
    · cases hr : restrictionAppliesToAction r.name action with
      | error e => simp
      | ok b =>
        cases b
        · exact ih ⟨a, hmem, happ⟩
        · simp

/-- Helper: a restriction scan that does not report "no restriction"
(a match, or a thrown lookup) never reaches the allow branch. -/
theorem evaluateFromRestrictions_not_allowed (ctx : EvaluationContext)
    (clrRes : Except Unit (List GrantRow)) (now : Int)
    (ua : List UserAttribute)
    (h : scanRestrictions (ua.filter (fun a => a.category == "restriction"))
        ctx.action ≠ Except.ok none) :
    (evaluateFromRestrictions ctx clrRes now ua).1.allowed = false := by
  simp only [evaluateFromRestrictions]
  split
  · rfl
  · rfl
  · rename_i heq
    exact absurd heq h

/-- Helper: after the required-attribute step passed, the call carries no
`Decision` row exactly when the restriction loop threw. -/
theorem evaluateFromRestrictions_none_iff (ctx : EvaluationContext)
    (clrRes : Except Unit (List GrantRow)) (now : Int)
    (ua : List UserAttribute) :
    (evaluateFromRestrictions ctx clrRes now ua).2 = none ↔
    scanRestrictions (ua.filter (fun a => a.category == "restriction"))
        ctx.action = Except.error () := by
  simp only [evaluateFromRestrictions]
  split
  · rename_i e heq
    cases e
    simp [heq]
  · rename_i r heq
    simp [heq]
  · rename_i heq
    constructor
    · intro hcontra
      split at hcontra <;> simp at hcontra
    · intro hcontra
      rw [heq] at hcontra
      simp at hcontra

/-- C4: a matching active restriction forces denial. If the subject's
active attributes contain a restriction-category attribute whose
blocked-prefix table matches the action, `checkPermission` returns
`allowed = false` — for every database state (so also when the subject
holds the required permission attribute) and every clearance-query outcome
(so a restriction overrides any clearance pass). -/
theorem C4_restriction_overrides (ctx : EvaluationContext) (now : Int)
    (db : List GrantRow) (clrRes : Except Unit (List GrantRow)) (auditOk : Bool)
    (hres : ∃ a ∈ queryUserAttributes db now, a.category = "restriction" ∧
      restrictionAppliesToAction a.name ctx.action = Except.ok true) :
    (checkPermission ⟨ctx, now, Except.ok db, clrRes⟩ auditOk).1.allowed = false := by
  have hscan : scanRestrictions ((queryUserAttributes db now).filter
      (fun a => a.category == "restriction")) ctx.action ≠ Except.ok none := by
    apply scanRestrictions_ne_none
    obtain ⟨a, ha, hcat, happ⟩ := hres
    exact ⟨a, List.mem_filter.mpr ⟨ha, by simp [hcat]⟩, happ⟩
  simp only [checkPermission, evaluate]
  split
  · split
    · exact evaluateFromRestrictions_not_allowed _ _ _ _ hscan
    · rfl
  · rfl
  · exact evaluateFromRestrictions_not_allowed _ _ _ _ hscan

/-- C4 (witness): a subject holding the `doc.download` permission, top
clearance, and the `restrict.no_export` restriction is denied
`doc.download`. -/
theorem C4_restriction_overrides_witness :
    (∃ a ∈ queryUserAttributes
        [⟨none, some ⟨"a1", "doc.download", "permission", 1, none⟩⟩,
         ⟨none, some ⟨"a3", "restrict.no_export", "restriction", 1, some "no export"⟩⟩,
         ⟨none, some ⟨"a4", "clearance.L4.top_secret", "authorization", 4, none⟩⟩] 0,
      a.category = "restriction" ∧
      restrictionAppliesToAction a.name "doc.download" = Except.ok true) ∧
    (checkPermission
      ⟨⟨"S", "doc.download", "document", none, none⟩, 0,
        Except.ok
          [⟨none, some ⟨"a1", "doc.download", "permission", 1, none⟩⟩,
           ⟨none, some ⟨"a3", "restrict.no_export", "restriction", 1, some "no export"⟩⟩,
           ⟨none, some ⟨"a4", "clearance.L4.top_secret", "authorization", 4, none⟩⟩],
        Except.ok []⟩ true).1.allowed = false := by
  have hex : ∃ a ∈ queryUserAttributes
      [⟨none, some ⟨"a1", "doc.download", "permission", 1, none⟩⟩,
       ⟨none, some ⟨"a3", "restrict.no_export", "restriction", 1, some "no export"⟩⟩,
       ⟨none, some ⟨"a4", "clearance.L4.top_secret", "authorization", 4, none⟩⟩] 0,
      a.category = "restriction" ∧
      restrictionAppliesToAction a.name "doc.download" = Except.ok true :=
    ⟨⟨"a3", "restrict.no_export", "restriction", 1, some "no export"⟩,
      by decide, rfl, rfl⟩
  exact ⟨hex, C4_restriction_overrides _ 0 _ _ true hex⟩

/-- C5: a missing mapped attribute denies and the reason names it. For
every action with an entry `req` in the fixed action-to-attribute table,
if the subject's active attribute grants do not include `req`, then
`checkPermission` returns `allowed = false`, the reason cites `req`, and
`attributesChecked = [req]`. -/
theorem C5_missing_attribute_denies (ctx : EvaluationContext) (now : Int)
    (db : List GrantRow) (clrRes : Except Unit (List GrantRow)) (auditOk : Bool)
    (req : String)
    (hmap : mapActionToAttribute ctx.action = MappedAttribute.attrName req)
    (hmissing : (queryUserAttributes db now).any (fun a => a.name == req) = false) :
    (checkPermission ⟨ctx, now, Except.ok db, clrRes⟩ auditOk).1
      = { allowed := false
          reason := "Permiso denegado: requiere atributo \"" ++ req ++ "\""
          policy := none
          attributesChecked := some [req] } := by
  simp [checkPermission, evaluate, hmap, hmissing]

/-- C5 (witness): the end-to-end example of the claim — a subject holding
only `case.create` asking for `case.edit` is denied with a reason citing
the mapped attribute `case.edit.metadata`. -/
theorem C5_missing_attribute_denies_witness :
    mapActionToAttribute "case.edit" = MappedAttribute.attrName "case.edit.metadata" ∧
    (queryUserAttributes
        [⟨none, some ⟨"a1", "case.create", "permission", 1, none⟩⟩] 0).any
      (fun a => a.name == "case.edit.metadata") = false ∧
    (checkPermission
      ⟨⟨"S", "case.edit", "cases", none, none⟩, 0,
        Except.ok [⟨none, some ⟨"a1", "case.create", "permission", 1, none⟩⟩],
        Except.ok []⟩ true).1
      = { allowed := false
          reason := "Permiso denegado: requiere atributo \"case.edit.metadata\""
          policy := none
          attributesChecked := some ["case.edit.metadata"] } := by
  refine ⟨by decide, by decide, ?_⟩
  exact C5_missing_attribute_denies ⟨"S", "case.edit", "cases", none, none⟩ 0
    [⟨none, some ⟨"a1", "case.create", "permission", 1, none⟩⟩]
    (Except.ok []) true "case.edit.metadata" (by decide) (by decide)

/-- C6: the clearance check of `checkPermission` passes exactly when the
subject's clearance level reaches the classification's required level
(public 1, confidential 2, secret 3, top secret 4); a subject with zero
active clearance attributes passes only for `public`. -/
theorem C6_clearance_iff (cls : String) (db : List GrantRow) (now : Int)
    (hcls : cls = "public" ∨ cls = "confidential" ∨ cls = "secret" ∨
      cls = "top_secret") :
    checkClearanceLevel (Except.ok db) now cls = true ↔
      (if (clearanceQuery db now).isEmpty = true then cls = "public"
       else subjectClearanceLevel db now ≥ requiredLevelSpec cls) := by
  have hreq : (requiredLevels cls).getD 1 = requiredLevelSpec cls := by
    rcases hcls with h | h | h | h <;> subst h <;> rfl
  simp only [checkClearanceLevel, subjectClearanceLevel, hreq]
  by_cases he : (clearanceQuery db now).isEmpty = true
  · simp [he]
  · simp [he]

/-- C6 (witness): a subject holding `clearance.L3.secret` passes for
classification `secret`. -/
theorem C6_clearance_iff_witness :
    ("secret" = "public" ∨ "secret" = "confidential" ∨ "secret" = "secret" ∨
      "secret" = "top_secret") ∧
    (checkClearanceLevel
        (Except.ok [⟨none, some ⟨"c3", "clearance.L3.secret", "authorization", 3, none⟩⟩])
        0 "secret" = true ↔
      (if (clearanceQuery
            [⟨none, some ⟨"c3", "clearance.L3.secret", "authorization", 3, none⟩⟩]
            0).isEmpty = true then "secret" = "public"
       else subjectClearanceLevel
            [⟨none, some ⟨"c3", "clearance.L3.secret", "authorization", 3, none⟩⟩] 0
          ≥ requiredLevelSpec "secret")) := by
  refine ⟨Or.inr (Or.inr (Or.inl rfl)), ?_⟩
  exact C6_clearance_iff "secret"
    [⟨none, some ⟨"c3", "clearance.L3.secret", "authorization", 3, none⟩⟩] 0
    (Or.inr (Or.inr (Or.inl rfl)))

/-- C7 (counterexample): the claim that every call, on every branch of its
outcome, writes exactly one `Decision` before returning fails: a call whose
attribute load errors returns a deny outcome having written zero decisions
(here the audit write itself would have succeeded). -/
theorem C7_counterexample :
    (checkPermission ⟨⟨"u1", "case.view", "cases", none, none⟩, 0,
        Except.error (), Except.ok []⟩ true).1.allowed = false ∧
    (checkPermission ⟨⟨"u1", "case.view", "cases", none, none⟩, 0,
        Except.error (), Except.ok []⟩ true).2 = [] := by
  exact ⟨rfl, rfl⟩

/-- C7 (amended): a call that ends in the catch — a failed attribute load,
or a TypeError thrown by the restriction loop on a restriction attribute
named like an `Object.prototype` member — returns the fail-closed deny
having written zero `Decision` rows; every other call attempts exactly one
`Decision` write before returning, on allow and deny branches alike
(after a successful attribute load, the zero-write case happens exactly
when the required-attribute step passed and the restriction scan threw);
and the outcome of the audit write never changes the returned evaluation
result, on any branch. -/
theorem C7_amended (ctx : EvaluationContext) (now : Int) (db : List GrantRow)
    (clrRes : Except Unit (List GrantRow)) (e : Unit) :
    ((checkPermission ⟨ctx, now, Except.error e, clrRes⟩ true).2 = [] ∧
      (checkPermission ⟨ctx, now, Except.error e, clrRes⟩ true).1.allowed = false) ∧
    ((checkPermission ⟨ctx, now, Except.ok db, clrRes⟩ true).2.length
        = if (evaluate ⟨ctx, now, Except.ok db, clrRes⟩).2.isSome then 1 else 0) ∧
    ((evaluate ⟨ctx, now, Except.ok db, clrRes⟩).2 = none ↔
      (requiredCheckPasses ctx.action (queryUserAttributes db now) = true ∧
        scanRestrictions ((queryUserAttributes db now).filter
          (fun a => a.category == "restriction")) ctx.action
          = Except.error ())) ∧
    (∀ (attrsRes : Except Unit (List GrantRow)) (b b' : Bool),
      (checkPermission ⟨ctx, now, attrsRes, clrRes⟩ b).1
        = (checkPermission ⟨ctx, now, attrsRes, clrRes⟩ b').1) := by
  refine ⟨⟨rfl, rfl⟩, ?_, ?_, fun attrsRes b b' => rfl⟩
  · cases hd : (evaluate ⟨ctx, now, Except.ok db, clrRes⟩).2 with
    | none => simp [checkPermission, hd]
    | some d => simp [checkPermission, hd]
  · cases hm : mapActionToAttribute ctx.action with
    | attrName req =>
      by_cases hany : ((queryUserAttributes db now).any
          (fun a => a.name == req)) = true
      · simp [evaluate, requiredCheckPasses, hm, hany,
          evaluateFromRestrictions_none_iff]
      · simp [evaluate, requiredCheckPasses, hm, hany]
    | protoMember key => simp [evaluate, requiredCheckPasses, hm]
    | nullish =>
      simp [evaluate, requiredCheckPasses, hm, evaluateFromRestrictions_none_iff]

/-- C10 (counterexample): not every action absent from the mapping table
is allowed by default. The action `toString` has no entry in the table,
yet the lookup `mapping['toString']` yields the truthy inherited
`Object.prototype.toString`; the required-attribute check then fails
against every attribute name, and a subject holding no grants is denied. -/
theorem C10_counterexample :
    (checkPermission ⟨⟨"S", "toString", "document", none, none⟩, 0,
        Except.ok [], Except.ok []⟩ true).1.allowed = false := by
  decide

/-- C10 (amended): for every action that has no entry in the mapping table
and is not the name of an `Object.prototype` member, the attribute-check
step imposes nothing: a subject holding no grants at all receives
`allowed = true` whenever the store reads succeed and the request is not a
classified case resource. An unmapped action named like an
`Object.prototype` member is instead denied at the required-attribute
step, because the lookup returns the truthy inherited member, which equals
no attribute name. -/
theorem C10_amended (ctx : EvaluationContext) (now : Int) (db : List GrantRow)
    (clrRes : Except Unit (List GrantRow)) (auditOk : Bool)
    (hempty : queryUserAttributes db now = [])
    (hres : ctx.resourceType ≠ "case" ∨ ctx.classification = none) :
    (mapActionToAttribute ctx.action = MappedAttribute.nullish →
      (checkPermission ⟨ctx, now, Except.ok db, clrRes⟩ auditOk).1.allowed
        = true) ∧
    (∀ key, mapActionToAttribute ctx.action = MappedAttribute.protoMember key →
      (checkPermission ⟨ctx, now, Except.ok db, clrRes⟩ auditOk).1.allowed
        = false) := by
  have hguard : classificationGuard ctx = false := by
    rcases hres with h | h
    · simp [classificationGuard, h]
    · simp [classificationGuard, h]
  constructor
  · intro hmap
    simp [checkPermission, evaluate, hmap, hempty, evaluateFromRestrictions,
      scanRestrictions, hguard]
  · intro key hmap
    simp [checkPermission, evaluate, hmap]

/-- C10 (witness): the unmapped, non-prototype action `foo.bar` is allowed
for a subject with zero grants. -/
theorem C10_amended_witness :
    queryUserAttributes [] 0 = [] ∧
    mapActionToAttribute "foo.bar" = MappedAttribute.nullish ∧
    (checkPermission ⟨⟨"S", "foo.bar", "document", none, none⟩, 0,
        Except.ok [], Except.ok []⟩ true).1.allowed = true := by
  have h := C10_amended ⟨"S", "foo.bar", "document", none, none⟩ 0 []
    (Except.ok []) true rfl (Or.inl (by decide))
  exact ⟨rfl, by decide, h.1 (by decide)⟩

/-- Helper: reading back the key just written to the rate-limit store. -/
theorem storeGet_storeSet (s : List (String × RateLimitEntry)) (k : String)
    (v : RateLimitEntry) : storeGet (storeSet s k v) k = some v := by
  induction s with
  | nil => simp [storeSet, storeGet, List.find?]
  | cons p rest ih =>
    by_cases hp : (p.1 == k) = true
    · simp [storeSet, hp, storeGet, List.find?_cons]
    · rw [Bool.not_eq_true] at hp
      simpa [storeSet, hp, storeGet, List.find?_cons] using ih

/-- Helper: evolution of the fixed-window counter. Starting from an entry
with count `c` and reset time `R`, a run of requests all at or before `R`
increments the counter once per request, never resets, and allows exactly
the requests whose incremented count stays at or below the limit. -/
theorem rateLimit_run_counts (id : String) (maxR : Nat) (R : Int)
    (ts : List Int) :
    ∀ (c : Nat) (store : List (String × RateLimitEntry)),
    storeGet store ("rate:" ++ id) = some ⟨c, R⟩ →
    (∀ t ∈ ts, ¬ (R < t)) →
    (runRateLimit id maxR store ts).1
        = (List.range ts.length).map (fun i => decide (c + 1 + i ≤ maxR)) ∧
    storeGet (runRateLimit id maxR store ts).2 ("rate:" ++ id)
        = some ⟨c + ts.length, R⟩ := by
  induction ts with
  | nil =>
    intro c store h _
    exact ⟨rfl, by simpa [runRateLimit] using h⟩
  | cons t ts ih =>
    intro c store h hts
    have hnt : ¬ (R < t) := hts t (by simp)
    have hstep1 : (checkRateLimit store t id maxR).1.allowed
        = decide (c + 1 ≤ maxR) := by
      simp only [checkRateLimit, h]
      rw [if_neg hnt]
    have hstep2 : (checkRateLimit store t id maxR).2
        = storeSet store ("rate:" ++ id) ⟨c + 1, R⟩ := by
      simp only [checkRateLimit, h]
      rw [if_neg hnt]
    have hrest := ih (c + 1) (storeSet store ("rate:" ++ id) ⟨c + 1, R⟩)
      (storeGet_storeSet _ _ _) (fun t' ht' => hts t' (by simp [ht']))
    constructor
    · simp only [runRateLimit, hstep1, hstep2]
      rw [hrest.1]
      rw [List.length_cons, List.range_succ_eq_map, List.map_cons, List.map_map]
      congr 1
      apply List.map_congr_left
      intro i _
      simp only [Function.comp_apply]
      apply decide_eq_decide.mpr
      omega
    · simp only [runRateLimit, hstep2]
      have hlen : c + 1 + ts.length = c + (t :: ts).length := by
        simp only [List.length_cons]
        omega
      rw [hrest.2, hlen]

/-- C9: fixed-window rate limiting. For a limit of at least 1 and a
principal with no stored counter, a run of requests all inside the window
opened by the first one allows exactly the first `limit` requests (the
k-th verdict is `k ≤ limit`, so the (limit+1)-th and all later requests of
the window are denied), and a request arriving after the window's reset
time is allowed again. -/
theorem C9_fixed_window (id : String) (maxR : Nat)
    (store0 : List (String × RateLimitEntry)) (t1 : Int) (ts : List Int)
    (t' : Int)
    (hfresh : storeGet store0 ("rate:" ++ id) = none)
    (hmax : 1 ≤ maxR)
    (hwin : ∀ t ∈ ts, t ≤ t1 + RATE_LIMIT_WINDOW_MS)
    (hafter : t1 + RATE_LIMIT_WINDOW_MS < t') :
    (runRateLimit id maxR store0 (t1 :: ts)).1
        = (List.range (ts.length + 1)).map (fun i => decide (i + 1 ≤ maxR)) ∧
    (checkRateLimit (runRateLimit id maxR store0 (t1 :: ts)).2 t' id maxR).1.allowed
        = true := by
  have hstep0res : (checkRateLimit store0 t1 id maxR).1.allowed = true := by
    simp only [checkRateLimit, hfresh]
  have hstep0store : (checkRateLimit store0 t1 id maxR).2
      = storeSet store0 ("rate:" ++ id) ⟨1, t1 + RATE_LIMIT_WINDOW_MS⟩ := by
    simp only [checkRateLimit, hfresh]
  have hrun := rateLimit_run_counts id maxR (t1 + RATE_LIMIT_WINDOW_MS) ts 1
    (storeSet store0 ("rate:" ++ id) ⟨1, t1 + RATE_LIMIT_WINDOW_MS⟩)
    (storeGet_storeSet _ _ _)
    (fun t ht => not_lt.mpr (hwin t ht))
  constructor
  · simp only [runRateLimit, hstep0res, hstep0store]
    rw [hrun.1]
    rw [List.range_succ_eq_map, List.map_cons, List.map_map]
    congr 1
    · have h1 : (0 : Nat) + 1 ≤ maxR := by omega
      simp [h1]
    · apply List.map_congr_left
      intro i _
      simp only [Function.comp_apply]
      apply decide_eq_decide.mpr
      omega
  · have hfinal : storeGet (runRateLimit id maxR store0 (t1 :: ts)).2
        ("rate:" ++ id) = some ⟨1 + ts.length, t1 + RATE_LIMIT_WINDOW_MS⟩ := by
      simp only [runRateLimit, hstep0store]
      exact hrun.2
    simp only [checkRateLimit, hfinal]
    rw [if_pos hafter]

/-- C9 (witness): with limit 2, three requests at times 0, 1, 2 give
allow, allow, deny, and a request at time 70000 (after the window) is
allowed again. -/
theorem C9_fixed_window_witness :
    storeGet [] ("rate:" ++ "u") = none ∧
    (runRateLimit "u" 2 [] [0, 1, 2]).1
        = (List.range 3).map (fun i => decide (i + 1 ≤ 2)) ∧
    (checkRateLimit (runRateLimit "u" 2 [] [0, 1, 2]).2 70000 "u" 2).1.allowed
        = true := by
  have h := C9_fixed_window "u" 2 [] 0 [1, 2] 70000 (by decide) (by decide)
    (by decide) (by decide)
  exact ⟨by decide, h.1, h.2⟩

/-- Determinism of the anonymized projection (supporting C8): the user
hash depends only on the subject identifier, whatever the hash function. -/
theorem toSanitized_deterministic (md5hex : String → String) (r1 r2 : LogRow)
    (h : r1.userId = r2.userId) :
    (toSanitized md5hex r1).userHash = (toSanitized md5hex r2).userHash := by
  simp [toSanitized, h]

/-- The anonymized projection ignores the resource identifier entirely
(supporting C8): changing `resourceId` does not change any field of the
sanitized row, whose record type has no such column. -/
theorem toSanitized_drops_resourceId (md5hex : String → String) (r : LogRow)
    (rid : Option String) :
    toSanitized md5hex { r with resourceId := rid } = toSanitized md5hex r := rfl

/-- A reason containing a UUID-shaped substring is replaced by the fixed
placeholder (supporting C8). -/
theorem sanitizeReason_redacts_uuid (r : String)
    (h : containsUuidShaped r = true) :
    sanitizeReason (some r) = some "Access decision logged" := by
  simp [sanitizeReason, h]

end Jueces
